import Mathlib

/-!
Verification development for the bakery production scheduler
(`src/backend/app/scheduler.py`, `src/backend/app/main.py`,
`src/backend/app/models.py`, `src/backend/app/config.py`).

Modelling conventions:
  * Python `datetime` values are modelled as integer minutes since an
    arbitrary epoch; `timedelta(minutes = d)` becomes addition of `d`.
    `ScheduledTask.duration` (`int((end - start).total_seconds() / 60)`)
    therefore becomes plain integer subtraction.
  * Python floats that only ever carry exact small values
    (the equitable-threat-score arithmetic, `scaling_factor`) are
    modelled as rationals; `float('-inf')` becomes `(⊥ : WithBot ℚ)`.
  * Python exceptions (`KeyError` from `self.recipes[...]`, `IndexError`
    from `split('_')[1]` and `order_tasks[0]`, the `TypeError` raised by
    `all_tasks.extend(None)`) are modelled with `Except Unit`.
  * Python's stable sort (`sorted`) is modelled by `List.insertionSort`,
    which is stable for the (total, transitive) comparators used here, so
    it computes the same list as any stable sort.
  * `dict` iteration order is first-insertion order, modelled by
    association lists grown at the back.  The one `set` comprehension
    (`{task.orderId for task in schedule}` in `_is_feasible`) iterates in
    an unspecified order in Python; it is modelled as first-occurrence
    order.  The boolean result of `_is_feasible` does not depend on that
    order (an order either passes its check or fails it, independently of
    the others), only the exact cache contents after a failing run do.
  * Methods that `scheduler.py` calls but never defines
    (`_generate_initial_population`, `_tournament_select`, `_crossover`,
    `_mutate`, `_get_neighbors`, `_is_optimal_timing`,
    `_calculate_earliest_starts`, `_find_next_available_slot`,
    `_group_orders_for_batching`, `validate_order`) are taken as explicit
    parameters, or modelled from the spec where the spec describes them;
    each such definition carries a comment saying so.
-/

/-! ## Data model (src/backend/app/models.py and the dataclass in scheduler.py) -/

/-- A production step.  Fields are those of `models.ProductionStep`
(name, duration, requiresHuman, requiresOven, requiresMixer,
mustFollowImmediately, scalingFactor) together with the `resources`
list that `scheduler.py` reads from its step objects
(`step.resources`, absent from the pydantic model — the scheduler was
written against a step shape that also carries the resource names). -/
structure ProductionStep where
  name : String
  duration : Int
  requiresHuman : Bool
  requiresOven : Bool
  requiresMixer : Bool
  mustFollowImmediately : Bool
  scalingFactor : ℚ
  resources : List String
  deriving Repr, DecidableEq

/-- A recipe (`models.Recipe`): product type, ordered steps, chilling data
and batch-size bounds. -/
structure Recipe where
  productType : String
  steps : List ProductionStep
  requiresChilling : Bool
  maxChillTime : Int
  minBatchSize : Int
  maxBatchSize : Int
  deriving Repr, DecidableEq

/-- An order item: the product it references (by product type, which is
what the scheduler keys recipes on) and a positive quantity. -/
structure OrderItem where
  productType : String
  quantity : Int
  deriving Repr, DecidableEq, Inhabited

/-- An order, restricted to the fields the scheduler reads:
`id`, `delivery_date`, `delivery_slot` (both modelled as integers,
order-isomorphically to the string forms compared in the source) and
`items`. -/
structure Order where
  id : String
  delivery_date : Int
  delivery_slot : Int
  items : List OrderItem
  deriving Repr, DecidableEq

/-- The scheduler's `ScheduledTask` dataclass: order id, step name,
start/end time (minutes), resource names, batch size, status. -/
structure ScheduledTask where
  orderId : String
  step : String
  startTime : Int
  endTime : Int
  resources : List String
  batchSize : Int
  status : String
  deriving Repr, DecidableEq

/-- The `duration` property of `ScheduledTask`:
`int((self.endTime - self.startTime).total_seconds() / 60)` — with times
in whole minutes this is exactly `endTime - startTime`. -/
def ScheduledTask.duration (t : ScheduledTask) : Int :=
  t.endTime - t.startTime

/-! ## Configured resource capacities (src/backend/app/config.py) -/

/-- `Settings.num_bakers` in config.py. -/
def num_bakers : Nat := 2

/-- `Settings.num_ovens` in config.py. -/
def num_ovens : Nat := 1

/-- `Settings.num_mixers` in config.py. -/
def num_mixers : Nat := 2

/-- The configured capacity of a resource category, from config.py
(`resources: bakers/ovens/mixers` in the `/config` endpoint of main.py). -/
def resourceCapacity (r : String) : Nat :=
  if r = "baker" then num_bakers
  else if r = "oven" then num_ovens
  else if r = "mixer" then num_mixers
  else 0

/-- The number of scheduled tasks whose half-open interval
`[startTime, endTime)` covers instant `t` and whose resource list contains
the category `r`. -/
def concurrentAt (schedule : List ScheduledTask) (r : String) (t : Int) : Nat :=
  (schedule.filter (fun task =>
    r ∈ task.resources ∧ task.startTime ≤ t ∧ t < task.endTime)).length

/-! ## Sorting helpers mirroring Python's stable `sorted` -/

/-- Comparator for `sorted(all_tasks, key=lambda t: t.startTime)`. -/
def taskStartLe (a b : ScheduledTask) : Prop := a.startTime ≤ b.startTime

instance : DecidableRel taskStartLe := fun a b =>
  inferInstanceAs (Decidable (a.startTime ≤ b.startTime))

instance : IsTotal ScheduledTask taskStartLe :=
  ⟨fun a b => le_total a.startTime b.startTime⟩

instance : IsTrans ScheduledTask taskStartLe :=
  ⟨fun _ _ _ h h' => le_trans h h'⟩

/-- Comparator for `sorted(orders, key=lambda o: (o.delivery_date,
o.delivery_slot))` (lexicographic tuple order). -/
def orderKeyLe (a b : Order) : Prop :=
  a.delivery_date < b.delivery_date ∨
    (a.delivery_date = b.delivery_date ∧ a.delivery_slot ≤ b.delivery_slot)

instance : DecidableRel orderKeyLe := fun _a _b =>
  inferInstanceAs (Decidable (_ ∨ _))

instance : IsTotal Order orderKeyLe := by
  constructor
  intro a b
  rcases lt_trichotomy a.delivery_date b.delivery_date with h | h | h
  · exact Or.inl (Or.inl h)
  · rcases le_total a.delivery_slot b.delivery_slot with h' | h'
    · exact Or.inl (Or.inr ⟨h, h'⟩)
    · exact Or.inr (Or.inr ⟨h.symm, h'⟩)
  · exact Or.inr (Or.inl h)

instance : IsTrans Order orderKeyLe := by
  constructor
  rintro a b c (h | ⟨h1, h2⟩) (h' | ⟨h1', h2'⟩)
  · exact Or.inl (lt_trans h h')
  · exact Or.inl (h1' ▸ h)
  · exact Or.inl (h1 ▸ h')
  · exact Or.inr ⟨h1.trans h1', h2.trans h2'⟩

/-- Lexicographic order on integer pairs, as Python compares
`(start, end)` tuples in `sorted(intervals)` and `bisect.insort`. -/
def intervalLe (a b : Int × Int) : Prop :=
  a.1 < b.1 ∨ (a.1 = b.1 ∧ a.2 ≤ b.2)

instance : DecidableRel intervalLe := fun _a _b =>
  inferInstanceAs (Decidable (_ ∨ _))

instance : IsTotal (Int × Int) intervalLe := by
  constructor
  intro a b
  rcases lt_trichotomy a.1 b.1 with h | h | h
  · exact Or.inl (Or.inl h)
  · rcases le_total a.2 b.2 with h' | h'
    · exact Or.inl (Or.inr ⟨h, h'⟩)
    · exact Or.inr (Or.inr ⟨h.symm, h'⟩)
  · exact Or.inr (Or.inl h)

instance : IsTrans (Int × Int) intervalLe := by
  constructor
  rintro a b c (h | ⟨h1, h2⟩) (h' | ⟨h1', h2'⟩)
  · exact Or.inl (lt_trans h h')
  · exact Or.inl (h1' ▸ h)
  · exact Or.inl (h1 ▸ h')
  · exact Or.inr ⟨h1.trans h1', h2.trans h2'⟩

/-! ## The scheduler's feasibility check (`BakeryScheduler._is_feasible`)

State carried between calls in `self.dependency_cache` (order ids whose
precedence chain was cached as valid) and `self.resource_usage_cache`
(resource name ↦ sorted interval list, written on first encounter of a
resource and only its presence read afterwards — the assignment
`cached = self.resource_usage_cache[resource]` in the source is unused). -/

/-- The mutable caches of a `BakeryScheduler` instance that
`_is_feasible` and `_calculate_ets_score` read and write
(`self.dependency_cache`, `self.resource_usage_cache`; the other caches
set up by `_setup_caches` are never consulted on this code path). -/
structure SchedState where
  dependency_cache : List String
  resource_usage_cache : List (String × List (Int × Int))
  deriving Repr, DecidableEq

/-- The state right after `_setup_caches` (all caches empty). -/
def emptySchedState : SchedState := ⟨[], []⟩

/-- Append an interval to a resource's list in the `defaultdict(list)`
named `resources` in `_is_feasible`, keeping first-insertion key order. -/
def addInterval (acc : List (String × List (Int × Int))) (r : String)
    (iv : Int × Int) : List (String × List (Int × Int)) :=
  match acc with
  | [] => [(r, [iv])]
  | (r', ivs) :: rest =>
      if r' = r then (r', ivs ++ [iv]) :: rest
      else (r', ivs) :: addInterval rest r iv

/-- The `resources` defaultdict built by the first loop of
`_is_feasible`: for each task in schedule order, for each of its
resources, append `(startTime, endTime)`. -/
def collectResources (schedule : List ScheduledTask) :
    List (String × List (Int × Int)) :=
  schedule.foldl
    (fun acc task =>
      task.resources.foldl
        (fun acc' r => addInterval acc' r (task.startTime, task.endTime))
        acc)
    []

/-- `any(i1[1] > i2[0] for i1, i2 in zip(intervals[:-1], intervals[1:]))`:
does some consecutive pair of intervals (in list order) overlap in the
sense `end of first > start of second`? -/
def hasAdjacentOverlap (ivs : List (Int × Int)) : Bool :=
  (ivs.zip ivs.tail).any (fun p => p.1.2 > p.2.1)

/-- Membership of a resource name in the resource-usage cache. -/
def cacheHas (st : SchedState) (r : String) : Bool :=
  st.resource_usage_cache.any (fun p => p.1 = r)

/-- The first loop of `_is_feasible` over `resources.items()`: a cached
resource is tested for consecutive-pair overlap (returning `False`
immediately on overlap, keeping the cache mutations made so far); an
uncached resource is entered into the cache with its intervals sorted,
without any overlap test. -/
def feasResources (st : SchedState) :
    List (String × List (Int × Int)) → Bool × SchedState
  | [] => (true, st)
  | (r, ivs) :: rest =>
      if cacheHas st r then
        if hasAdjacentOverlap ivs then (false, st)
        else feasResources st rest
      else
        feasResources
          { st with resource_usage_cache :=
              st.resource_usage_cache ++ [(r, List.insertionSort intervalLe ivs)] }
          rest

/-- First-occurrence deduplication of the order ids of a schedule,
modelling the set comprehension `{task.orderId for task in schedule}`
(Python's set iterates in an unspecified order; the check's boolean
result is order-independent). -/
def orderIdsOf (schedule : List ScheduledTask) : List String :=
  schedule.foldl (fun acc t => if t.orderId ∈ acc then acc else acc ++ [t.orderId]) []

/-- `self.recipes` is the dict `{r.productType: r for r in recipes}`;
on duplicate product types the last entry wins, hence lookup on the
reversed list. -/
def recipesLookup (recipes : List Recipe) (key : String) : Option Recipe :=
  recipes.reverse.find? (fun r => r.productType = key)

/-- Character-level worker for `str.split('_')` (defined here rather
than through `String.splitOn` so that it reduces inside the kernel;
the semantics is Python's: split at every underscore, keeping empty
pieces). -/
def splitUnderscoreAux : List Char → List Char → List (List Char)
  | [], acc => [acc]
  | c :: cs, acc =>
      if c = '_' then acc :: splitUnderscoreAux cs []
      else splitUnderscoreAux cs (acc ++ [c])

/-- `s.split('_')`. -/
def splitUnderscore (s : String) : List String :=
  (splitUnderscoreAux s.data []).map String.mk

/-- `t.step.split('_')[1]`, raising `IndexError` (modelled as
`Except.error`) when the step name contains no underscore. -/
def stepSuffix (s : String) : Except Unit String :=
  match (splitUnderscore s).get? 1 with
  | some x => .ok x
  | none => .error ()

/-- `order_tasks[0].step.split('_')[0]` — `split` always yields at least
one piece, so index 0 is total. -/
def stepKeyOf (s : String) : String :=
  (splitUnderscore s).headI

/-- The second loop of `_is_feasible` ("check precedence constraints"):
for each order id not in `dependency_cache`, the order's tasks sorted by
start time must name exactly the recipe's steps in order (comparing
`t.step.split('_')[1]` against step names, with the recipe fetched by
`order_tasks[0].step.split('_')[0]`); a passing order id is cached. -/
def feasPrecedence (recipes : List Recipe) (schedule : List ScheduledTask)
    (st : SchedState) : List String → Except Unit (Bool × SchedState)
  | [] => .ok (true, st)
  | oid :: rest =>
      if oid ∈ st.dependency_cache then
        feasPrecedence recipes schedule st rest
      else
        let order_tasks :=
          List.insertionSort taskStartLe
            (schedule.filter (fun t => t.orderId = oid))
        match order_tasks with
        | [] => .error ()
        | t0 :: _ =>
          match recipesLookup recipes (stepKeyOf t0.step) with
          | none => .error ()
          | some recipe => do
            let actual ← order_tasks.mapM (fun t => stepSuffix t.step)
            let expected := recipe.steps.map (fun s => s.name)
            if actual ≠ expected then
              .ok (false, st)
            else
              feasPrecedence recipes schedule
                { st with dependency_cache := st.dependency_cache ++ [oid] } rest

/-- `BakeryScheduler._is_feasible`, with the instance caches threaded
explicitly: the resource loop first (early `False` keeps the cache
mutations made so far), then the precedence loop. -/
def isFeasibleRun (recipes : List Recipe) (st : SchedState)
    (schedule : List ScheduledTask) : Except Unit (Bool × SchedState) :=
  match feasResources st (collectResources schedule) with
  | (false, st') => .ok (false, st')
  | (true, st') => feasPrecedence recipes schedule st' (orderIdsOf schedule)

/-- The step names of one order's tasks when sorted by start time,
read through the same `split('_')[1]` convention as the checker (total
variant, for use in statements). -/
def stepsByStart (schedule : List ScheduledTask) (oid : String) : List String :=
  (List.insertionSort taskStartLe (schedule.filter (fun t => t.orderId = oid))).map
    (fun t => (splitUnderscore t.step).getD 1 "")

/-! ## The fitness function (`BakeryScheduler._calculate_ets_score`)

`float('-inf')` is `(⊥ : WithBot ℚ)`; the equitable-threat-score
arithmetic is carried out in exact rationals (the scores are only ever
compared).  `self._is_optimal_timing` is called but never defined in the
source; it is an explicit parameter here. -/

/-- The per-threshold ETS term: hits/misses/false-alarms of the
predictions `duration >= threshold` against `optimal_timings`, the
chance correction `((hits+misses)*(hits+false_alarms))/total`, and the
guarded score `(hits - chance)/(hits+misses+false_alarms - chance)`.
With an empty schedule the guard is false (in Python the `nan` produced
by `0/0` fails the `> 0` comparison; in `ℚ` division by zero yields `0`
and the guard fails likewise). -/
def etsTerm (durations : List Int) (opts : List Bool) (θ : Int) : ℚ :=
  let pairs := durations.zip opts
  let hits : ℚ := (pairs.filter (fun p => θ ≤ p.1 ∧ p.2 = true)).length
  let misses : ℚ := (pairs.filter (fun p => ¬ θ ≤ p.1 ∧ p.2 = true)).length
  let falseAlarms : ℚ := (pairs.filter (fun p => θ ≤ p.1 ∧ p.2 = false)).length
  let total : ℚ := durations.length
  let chance : ℚ := ((hits + misses) * (hits + falseAlarms)) / total
  if hits + misses + falseAlarms - chance > 0 then
    (hits - chance) / (hits + misses + falseAlarms - chance)
  else 0

/-- The finite part of `_calculate_ets_score`: sum of the ETS terms over
the thresholds `[10, 20, 30, 40, 50, 60]`, divided by the number of
thresholds. -/
def etsValue (isOpt : ScheduledTask → Bool) (schedule : List ScheduledTask) : ℚ :=
  let durations := schedule.map (fun t => t.duration)
  let opts := schedule.map isOpt
  (([10, 20, 30, 40, 50, 60] : List Int).map (etsTerm durations opts)).sum / 6

/-- `BakeryScheduler._calculate_ets_score`: `-inf` for a schedule the
(stateful) feasibility check rejects, otherwise the ETS value. -/
def scoreRun (recipes : List Recipe) (isOpt : ScheduledTask → Bool)
    (st : SchedState) (schedule : List ScheduledTask) :
    Except Unit (WithBot ℚ × SchedState) :=
  match isFeasibleRun recipes st schedule with
  | .error e => .error e
  | .ok (feasible, st') =>
      if feasible then .ok ((etsValue isOpt schedule : ℚ), st')
      else .ok ((⊥ : WithBot ℚ), st')

/-- Sequential scoring of a population, as `sorted(population,
key=self._calculate_ets_score)` computes the keys: one stateful score
per candidate, in list order. -/
def scoreAll (recipes : List Recipe) (isOpt : ScheduledTask → Bool)
    (st : SchedState) :
    List (List ScheduledTask) →
      Except Unit (List (List ScheduledTask × WithBot ℚ) × SchedState)
  | [] => .ok ([], st)
  | s :: rest =>
      match scoreRun recipes isOpt st s with
      | .error e => .error e
      | .ok (v, st') =>
          match scoreAll recipes isOpt st' rest with
          | .error e => .error e
          | .ok (tl, st'') => .ok ((s, v) :: tl, st'')

/-- Comparator on scored candidates for the sort in
`sorted(population, key=self._calculate_ets_score)`. -/
def scoreLe (a b : List ScheduledTask × WithBot ℚ) : Prop := a.2 ≤ b.2

instance : DecidableRel scoreLe := fun a b =>
  inferInstanceAs (Decidable (a.2 ≤ b.2))

instance : IsTotal (List ScheduledTask × WithBot ℚ) scoreLe :=
  ⟨fun a b => le_total a.2 b.2⟩

instance : IsTrans (List ScheduledTask × WithBot ℚ) scoreLe :=
  ⟨fun _ _ _ h h' => le_trans h h'⟩

/-- `sorted(population, key=self._calculate_ets_score)[-2:]` applied to
already-scored candidates: stable ascending sort by score, then the last
two elements (`l[-2:]` is `drop (length - 2)`, the whole list when it is
shorter than two). -/
def elitePairs (scored : List (List ScheduledTask × WithBot ℚ)) :
    List (List ScheduledTask × WithBot ℚ) :=
  let sortedPairs := List.insertionSort scoreLe scored
  sortedPairs.drop (sortedPairs.length - 2)

/-- `max(candidates, key=self._calculate_ets_score)`: scores every
candidate in order (mutating the caches) and returns the first candidate
with maximal score; empty input raises (`ValueError` in Python). -/
def maxByScore (recipes : List Recipe) (isOpt : ScheduledTask → Bool)
    (st : SchedState) (candidates : List (List ScheduledTask)) :
    Except Unit ((List ScheduledTask × WithBot ℚ) × SchedState) :=
  match scoreAll recipes isOpt st candidates with
  | .error e => .error e
  | .ok (scored, st') =>
      match scored with
      | [] => .error ()
      | p :: ps =>
          .ok (ps.foldl (fun best q => if q.2 > best.2 then q else best) p, st')

/-! ## The optimizer (`BakeryScheduler._schedule_batch`,
`_local_search`, `_get_move_hash`, `schedule_orders`)

Instance attributes from `__init__`: `population_size = 128`,
`max_iterations = 50`, `mutation_rate = 0.2`, `crossover_rate = 0.8`,
`local_search_iters = 20`. -/

/-- `self.population_size` in `__init__`. -/
def population_size : Nat := 128

/-- `self.max_iterations` in `__init__`. -/
def max_iterations : Nat := 50

/-- `self.local_search_iters` in `__init__`. -/
def local_search_iters : Nat := 20

/-- `self.crossover_rate` in `__init__` (0.8). -/
def crossover_rate : ℚ := 4 / 5

/-- `self.mutation_rate` in `__init__` (0.2). -/
def mutation_rate : ℚ := 1 / 5

/-- The operators `_schedule_batch`, `_local_search` and
`_generate_heuristic_schedule` call on `self` but that are defined
nowhere in the repository, gathered as parameters, plus the random
source: `rnd n` is the value of the `n`-th call to `random.random()`.
`breedFuel` bounds the number of iterations of the
`while len(new_population) < self.population_size` loop, which in Python
does not terminate at all if the random draws stop selecting crossover;
runs in which the bound is reached truncate that loop. -/
structure OptimOps where
  genInitialPopulation : List Order → Recipe → List (List ScheduledTask)
  tournamentSelect :
    List (List ScheduledTask) → List ScheduledTask × List ScheduledTask
  crossover :
    List ScheduledTask → List ScheduledTask →
      List ScheduledTask × List ScheduledTask
  mutate : List ScheduledTask → List ScheduledTask
  getNeighbors : List ScheduledTask → List (List ScheduledTask)
  isOptimalTiming : ScheduledTask → Bool
  rnd : Nat → ℚ

/-- `_get_move_hash`: `hash(tuple((t.orderId, t.startTime, t.endTime) for
t in schedule))`, modelled injectively by the key tuple list itself. -/
def moveKey (schedule : List ScheduledTask) : List (String × Int × Int) :=
  schedule.map (fun t => (t.orderId, t.startTime, t.endTime))

/-- One pass of the `while` loop body of `_schedule_batch` that fills
`new_population`, with explicit fuel (see `OptimOps.breedFuel`):
if the population target is not reached, draw one random; on crossover
select parents, cross them, optionally mutate each child (one random
draw per child), and append both children. -/
def breed (ops : OptimOps) (population : List (List ScheduledTask)) :
    Nat → Nat → List (List ScheduledTask) →
      List (List ScheduledTask) × Nat
  | 0, k, acc => (acc, k)
  | fuel + 1, k, acc =>
      if acc.length < population_size then
        if ops.rnd k < crossover_rate then
          let (p1, p2) := ops.tournamentSelect population
          let (c1, c2) := ops.crossover p1 p2
          let c1' := if ops.rnd (k + 1) < mutation_rate then ops.mutate c1 else c1
          let c2' := if ops.rnd (k + 2) < mutation_rate then ops.mutate c2 else c2
          breed ops population fuel (k + 3) (acc ++ [c1', c2'])
        else
          breed ops population fuel (k + 1) acc
      else (acc, k)

/-- The amount of fuel given to `breed`; enough for any terminating run
that needs at most `population_size` loop iterations. -/
def breedFuel : Nat := population_size

/-- The loop body of `_local_search`: compute the neighborhood, drop
tabu moves, and if any remain move to the best-scoring neighbor,
recording its move hash (the tabu list is a Python `set`; `add` is
modelled as append-if-absent and the arbitrary-element `pop()` beyond
ten entries as dropping the oldest). -/
def localSearchStep (recipes : List Recipe) (ops : OptimOps)
    (st : SchedState) (current : List ScheduledTask)
    (tabu : List (List (String × Int × Int))) :
    Except Unit (List ScheduledTask × List (List (String × Int × Int)) × SchedState) :=
  let neighbors := ops.getNeighbors current
  let valid := neighbors.filter (fun n => moveKey n ∉ tabu)
  match valid with
  | [] => .ok (current, tabu, st)
  | _ :: _ =>
      match maxByScore recipes ops.isOptimalTiming st valid with
      | .error e => .error e
      | .ok (best, st') =>
          let tabu' := if moveKey best.1 ∈ tabu then tabu else tabu ++ [moveKey best.1]
          let tabu'' := if tabu'.length > 10 then tabu'.drop 1 else tabu'
          .ok (best.1, tabu'', st')

/-- The iteration of `_local_search` over `self.local_search_iters`
rounds. -/
def localSearchGo (recipes : List Recipe) (ops : OptimOps) :
    Nat → SchedState → List ScheduledTask →
      List (List (String × Int × Int)) →
      Except Unit (List ScheduledTask × SchedState)
  | 0, st, current, _ => .ok (current, st)
  | n + 1, st, current, tabu =>
      match localSearchStep recipes ops st current tabu with
      | .error e => .error e
      | .ok (current', tabu', st') => localSearchGo recipes ops n st' current' tabu'

/-- `BakeryScheduler._local_search`. -/
def localSearch (recipes : List Recipe) (ops : OptimOps) (st : SchedState)
    (schedule : List ScheduledTask) :
    Except Unit (List ScheduledTask × SchedState) :=
  localSearchGo recipes ops local_search_iters st schedule []

/-- The loop state of `_schedule_batch`: current population, best
schedule and score so far, the instance caches, and the random-draw
counter. -/
structure LoopState where
  population : List (List ScheduledTask)
  best_schedule : Option (List ScheduledTask)
  best_score : WithBot ℚ
  cache : SchedState
  k : Nat
  deriving Repr, DecidableEq

/-- One iteration of the `for iteration in range(self.max_iterations)`
loop of `_schedule_batch`: pick the two elite candidates by stateful
scoring, refill the population by crossover/mutation, append the elite,
locally improve the best member, and keep it as `best_schedule` if its
score strictly improves. -/
def schedIteration (recipes : List Recipe) (ops : OptimOps)
    (ls : LoopState) : Except Unit LoopState :=
  match scoreAll recipes ops.isOptimalTiming ls.cache ls.population with
  | .error e => .error e
  | .ok (scored, st1) =>
    let elite := (elitePairs scored).map (fun p => p.1)
    let bredk := breed ops ls.population breedFuel ls.k []
    let newPopulation := bredk.1 ++ elite
    match maxByScore recipes ops.isOptimalTiming st1 newPopulation with
    | .error e => .error e
    | .ok (bestCandidate, st2) =>
      match localSearch recipes ops st2 bestCandidate.1 with
      | .error e => .error e
      | .ok (improved, st3) =>
        match scoreRun recipes ops.isOptimalTiming st3 improved with
        | .error e => .error e
        | .ok (score, st4) =>
            if ls.best_score < score then
              .ok ⟨newPopulation, some improved, score, st4, bredk.2⟩
            else
              .ok ⟨newPopulation, ls.best_schedule, ls.best_score, st4, bredk.2⟩

/-- The iteration loop of `_schedule_batch`. -/
def runIters (recipes : List Recipe) (ops : OptimOps) :
    Nat → LoopState → Except Unit LoopState
  | 0, ls => .ok ls
  | n + 1, ls =>
      match schedIteration recipes ops ls with
      | .error e => .error e
      | .ok ls' => runIters recipes ops n ls'

/-- `BakeryScheduler._schedule_batch`: run `max_iterations` generations
from the initial population (built by the undefined
`_generate_initial_population`, here `ops.genInitialPopulation`) and
return `best_schedule` — `none` when no evaluated candidate ever scored
above `-inf` — together with the instance caches and the random
counter. -/
def scheduleBatch (recipes : List Recipe) (ops : OptimOps) (st : SchedState)
    (k : Nat) (orders : List Order) (recipe : Recipe) :
    Except Unit (Option (List ScheduledTask) × SchedState × Nat) :=
  match runIters recipes ops max_iterations
      ⟨ops.genInitialPopulation orders recipe, none, ⊥, st, k⟩ with
  | .error e => .error e
  | .ok ls => .ok (ls.best_schedule, ls.cache, ls.k)

/-- Modelled from the spec: `_group_orders_for_batching` is called by
`schedule_orders` but defined nowhere in the repository.  Its result is
iterated as `for product_type, batch_orders in order_batches.items()`
and the product type is used to fetch one recipe per group, so orders
are grouped by the product type of their (first) item, keys in
first-occurrence order like a Python dict. -/
def groupOrdersForBatching (orders : List Order) : List (String × List Order) :=
  orders.foldl
    (fun acc o =>
      let pt := (o.items.headI).productType
      if acc.any (fun p => p.1 = pt) then
        acc.map (fun p => if p.1 = pt then (p.1, p.2 ++ [o]) else p)
      else acc ++ [(pt, [o])])
    []

/-- The per-batch loop of `schedule_orders`: fetch the recipe
(`self.recipes[product_type]`, `KeyError` when absent), schedule the
batch, and extend `all_tasks` — in Python `all_tasks.extend(None)`
raises `TypeError` when `_schedule_batch` returned `None`, modelled as
an error. -/
def scheduleOrdersGo (recipes : List Recipe) (ops : OptimOps) :
    List (String × List Order) → SchedState → Nat → List ScheduledTask →
      Except Unit (List ScheduledTask)
  | [], _, _, allTasks => .ok (List.insertionSort taskStartLe allTasks)
  | (pt, batchOrders) :: rest, st, k, allTasks =>
      match recipesLookup recipes pt with
      | none => .error ()
      | some recipe =>
          match scheduleBatch recipes ops st k batchOrders recipe with
          | .error e => .error e
          | .ok (none, _, _) => .error ()
          | .ok (some batchTasks, st', k') =>
              scheduleOrdersGo recipes ops rest st' k' (allTasks ++ batchTasks)

/-- `BakeryScheduler.schedule_orders`: sort the orders by
`(delivery_date, delivery_slot)`, clear the caches (`_setup_caches`),
group the orders for batching, schedule every batch, and return all
tasks sorted by ascending start time. -/
def scheduleOrders (recipes : List Recipe) (ops : OptimOps)
    (orders : List Order) : Except Unit (List ScheduledTask) :=
  let sortedOrders := List.insertionSort orderKeyLe orders
  scheduleOrdersGo recipes ops (groupOrdersForBatching sortedOrders)
    emptySchedState 0 []

/-! ## The heuristic schedule generator
(`BakeryScheduler._generate_heuristic_schedule`)

The two helpers it calls, `self._calculate_earliest_starts` and
`self._find_next_available_slot`, are defined nowhere in the repository
and are taken as parameters (`ces` and `findSlot`); the earliest-start
list indexed by `start_times[step_idx]` is modelled as a function of the
step index. -/

/-- The resource timeline of the generator: resource name ↦ list of busy
intervals, kept sorted by `bisect.insort` (lexicographic tuple order). -/
abbrev Timeline := List (String × List (Int × Int))

/-- `bisect.insort(resource_timeline[resource], (start, end))` on a
`defaultdict(list)`: sorted insert into the resource's interval list,
creating the entry at the back on first touch. -/
def timelineInsort (tl : Timeline) (r : String) (iv : Int × Int) : Timeline :=
  match tl with
  | [] => [(r, [iv])]
  | (r', ivs) :: rest =>
      if r' = r then (r', List.orderedInsert intervalLe iv ivs) :: rest
      else (r', ivs) :: timelineInsort rest r iv

/-- The inner step loop of `_generate_heuristic_schedule`: for each step
(with its index), ask `findSlot` for a start at or after the
precomputed earliest start, build the task with
`endTime = start + step.duration`, `batchSize` equal to the quantity
passed in (the order's first item), status `'pending'`, and record the
interval on the timeline for each of the step's resources. -/
def genSteps (findSlot : Int → Int → List String → Timeline → Int)
    (oid : String) (qty : Int) (startTimes : Nat → Int) :
    List ProductionStep → Nat → Timeline → List ScheduledTask × Timeline
  | [], _, tl => ([], tl)
  | step :: rest, idx, tl =>
      let start := findSlot (startTimes idx) step.duration step.resources tl
      let task : ScheduledTask :=
        ⟨oid, step.name, start, start + step.duration, step.resources, qty, "pending"⟩
      let tl' := step.resources.foldl (fun t r => timelineInsort t r (start, task.endTime)) tl
      let (ts, tl'') := genSteps findSlot oid qty startTimes rest (idx + 1) tl'
      (task :: ts, tl'')

/-- The outer order loop of `_generate_heuristic_schedule` (orders
already sorted by `(delivery_date, delivery_slot)`): compute the earliest
starts for the order against the current timeline, schedule every recipe
step, and accumulate tasks across orders. -/
def genOrders (ces : Order → Recipe → Timeline → Nat → Int)
    (findSlot : Int → Int → List String → Timeline → Int) (recipe : Recipe) :
    List Order → Timeline → List ScheduledTask
  | [], _ => []
  | o :: os, tl =>
      let startTimes := ces o recipe tl
      let (ts, tl') :=
        genSteps findSlot o.id (o.items.headI).quantity startTimes recipe.steps 0 tl
      ts ++ genOrders ces findSlot recipe os tl'

/-- `BakeryScheduler._generate_heuristic_schedule`. -/
def generateHeuristicSchedule (ces : Order → Recipe → Timeline → Nat → Int)
    (findSlot : Int → Int → List String → Timeline → Int)
    (orders : List Order) (recipe : Recipe) : List ScheduledTask :=
  genOrders ces findSlot recipe (List.insertionSort orderKeyLe orders) []

/-- Modelled from the spec: `_find_next_available_slot` is absent from
the repository; §4.3 describes the forward mode of the SlotFinder as
anchoring at the lower bound and walking outward in one-minute
increments until every required resource is free of overlap for the
whole `[start, start + duration)` window, within a bounded look-ahead
horizon (on an exhausted horizon the spec raises `NoFeasibleSlotError`;
this total model then returns the horizon bound, a case none of the
runs below reaches). -/
def slotFinderSimple (horizon : Nat) (lb : Int) (dur : Int)
    (rs : List String) (tl : Timeline) : Int :=
  match (List.range horizon).find? (fun d =>
      rs.all (fun r =>
        (((tl.find? (fun p => p.1 = r)).map (fun p => p.2)).getD []).all
          (fun iv => ¬ (iv.1 < lb + d + dur ∧ lb + d < iv.2)))) with
  | some d => lb + d
  | none => lb + horizon

/-- Modelled from the spec: `_calculate_earliest_starts` is absent from
the repository; its docstring asks for "earliest possible start times
considering dependencies", so step `i`'s earliest start is the chain sum
of the durations of the steps before it, from base time `0`. -/
def cesChain : Order → Recipe → Timeline → Nat → Int :=
  fun _ recipe _ idx => ((recipe.steps.take idx).map (fun s => s.duration)).sum

/-! ## BatchPlanner (spec §4.1) -/

/-- Modelled from the spec: no batch decomposition exists in the
repository source — `_generate_heuristic_schedule` stamps every task
with `order.items[0].quantity` ("Simplified for example") — while spec
§4.1 describes BatchPlanner's greedy algorithm: emit `maxBatchSize`
while more than `maxBatchSize` remains; a remainder of at least
`minBatchSize` is emitted as the final batch; a positive remainder below
`minBatchSize` is emitted as a `minBatchSize` batch (the spec's
over-production policy (b), the one its test scenario "quantity 2 with
min 3 gives one batch of 3" exercises).  The `0 < maxB` conjunct in the
guard only forces termination on inputs the wrapper already rejects. -/
def batchPlanGo (minB maxB : Nat) (qty : Nat) : List Nat :=
  if h : 0 < maxB ∧ maxB < qty then
    maxB :: batchPlanGo minB maxB (qty - maxB)
  else if minB ≤ qty then [qty]
  else [minB]
termination_by qty
decreasing_by exact Nat.sub_lt (lt_trans h.1 h.2) h.1

/-- Modelled from the spec: BatchPlanner fails with
`InvalidRecipeError` when `minBatchSize > maxBatchSize` or the quantity
is not positive. -/
def batchPlan (minB maxB qty : Nat) : Except Unit (List Nat) :=
  if 0 < qty ∧ 0 < minB ∧ minB ≤ maxB then .ok (batchPlanGo minB maxB qty)
  else .error ()

/-! ## Order validation and the order-creation flow
(src/backend/app/main.py `create_order` / `validate_order`) -/

/-- Modelled from the spec: `BakeryScheduler.validate_order` is called
by `main.create_order` and `main.validate_order` but defined nowhere in
the repository.  Spec §4.6: every item's product must have a known
recipe, and the delivery date must be a parseable future date; the
validator returns `(isValid, warnings)`.  Dates are modelled as integer
day numbers against a `today` parameter. -/
def validateOrder (recipes : List Recipe) (today : Int) (o : Order) :
    Bool × List String :=
  let dateWarnings :=
    if o.delivery_date < today then ["Delivery date cannot be in the past"] else []
  let recipeWarnings :=
    o.items.filterMap (fun it =>
      if (recipesLookup recipes it.productType).isSome then none
      else some ("No recipe available for product " ++ it.productType))
  let ws := dateWarnings ++ recipeWarnings
  (ws.isEmpty, ws)

/-- The control flow of `create_order` in main.py: validate first and
answer 400 with the warnings when invalid — without ever calling the
scheduling routine, which is an explicit parameter here — otherwise
schedule and answer with the tasks (scheduling failures become 500). -/
def createOrder (schedOne : Order → Except Unit (List ScheduledTask))
    (recipes : List Recipe) (today : Int) (o : Order) :
    Except (Nat × List String) (String × List ScheduledTask) :=
  let (isValid, warnings) := validateOrder recipes today o
  if isValid then
    match schedOne o with
    | .ok tasks => .ok (o.id, tasks)
    | .error _ => .error (500, ["Scheduling error"])
  else .error (400, warnings)

/-! ## Specification-side definition for the duration claim -/

/-- Specification-side definition (from the spec's words, for
comparison with the source): a task's duration should equal its step's
base duration times the step's `scalingFactor` times a batch-size
derived adjustment, rounded to a whole minute. -/
def claimedDuration (s : ProductionStep) (batchAdj : ℚ) : ℤ :=
  round ((s.duration : ℚ) * s.scalingFactor * batchAdj)

/-! ## Concrete scenarios used in the theorems below -/

/-- Build a scheduled task with batch size 1 and status `'pending'`. -/
def mkTask (oid step : String) (s e : Int) (rs : List String) : ScheduledTask :=
  ⟨oid, step, s, e, rs, 1, "pending"⟩

/-- Demo step `mix` (60 min, mixer). -/
def stepMix : ProductionStep := ⟨"mix", 60, true, false, true, false, 1, ["mixer"]⟩

/-- Demo step `bake` (30 min, oven). -/
def stepBake : ProductionStep := ⟨"bake", 30, false, true, false, false, 1, ["oven"]⟩

/-- Demo step `rest` (20 min, no resource). -/
def stepRest : ProductionStep := ⟨"rest", 20, false, false, false, false, 1, []⟩

/-- Demo recipe for product type `cake` with steps mix, bake, rest. -/
def demoRecipe : Recipe := ⟨"cake", [stepMix, stepBake, stepRest], false, 0, 3, 12⟩

/-- The demo recipe catalog. -/
def demoRecipes : List Recipe := [demoRecipe]

/-- Claim C1's failing schedule: the `cake_mix` and `cake_bake` tasks of
order `o1` both occupy the oven on overlapping intervals `[0, 60)` and
`[30, 90)`. -/
def s1demo : List ScheduledTask :=
  [mkTask "o1" "cake_mix" 0 60 ["oven"], mkTask "o1" "cake_bake" 30 90 ["oven"],
   mkTask "o1" "cake_rest" 100 120 ["oven"]]

/-- The caches after `_is_feasible` accepts `s1demo` from a fresh state:
the oven's intervals are recorded (sorted) and `o1` is marked valid. -/
def st1demo : SchedState :=
  ⟨["o1"], [("oven", [(0, 60), (30, 90), (100, 120)])]⟩

/-- Claim C2's first schedule: order `o2` with all three steps in recipe
order on disjoint intervals. -/
def sAdemo : List ScheduledTask :=
  [mkTask "o2" "cake_mix" 0 10 ["baker"], mkTask "o2" "cake_bake" 20 30 ["baker"],
   mkTask "o2" "cake_rest" 40 50 ["baker"]]

/-- The caches after `_is_feasible` accepts `sAdemo` from a fresh
state. -/
def stAdemo : SchedState :=
  ⟨["o2"], [("baker", [(0, 10), (20, 30), (40, 50)])]⟩

/-- Claim C2's second schedule: the same order `o2` with `bake` first and
`mix` second in time — out of recipe order. -/
def sBdemo : List ScheduledTask :=
  [mkTask "o2" "cake_bake" 100 110 ["baker"], mkTask "o2" "cake_mix" 200 210 ["baker"],
   mkTask "o2" "cake_rest" 300 310 ["baker"]]

/-- Claim C6's seed schedule: order `o1`'s three tasks, all on the oven;
`cake_mix` occupies `[0, 60)` and `cake_bake` `[30, 90)` (overlapping),
while the `cake_rest` entry carries the ill-formed interval `(60, 20)`,
so in list order the consecutive-pair test
`end(mix) > start(rest)`, `end(rest) > start(bake)` never fires and the
schedule passes the cached resource check on every evaluation. -/
def sOverlap : List ScheduledTask :=
  [mkTask "o1" "cake_mix" 0 60 ["oven"], mkTask "o1" "cake_rest" 60 20 ["oven"],
   mkTask "o1" "cake_bake" 30 90 ["oven"]]

/-- The caches after any evaluation of `sOverlap`: a fixed point of
further evaluations. -/
def stOverlap : SchedState :=
  ⟨["o1"], [("oven", [(0, 60), (30, 90), (60, 20)])]⟩

/-- The finite score every evaluation of `sOverlap` yields. -/
def qOverlap : ℚ := etsValue (fun _ => true) sOverlap

/-- Claim C7's candidate: a single `cake_bake` task, which always fails
the precedence check (the recipe expects mix, bake, rest). -/
def s3demo : List ScheduledTask := [mkTask "o3" "cake_bake" 0 10 ["mixer"]]

/-- A demo order of product type `cake`. -/
def o1demo : Order := ⟨"o1", 1, 1, [⟨"cake", 5⟩]⟩

/-- Concrete instantiation of the operators missing from the source,
used for the closed optimizer runs: the initial population is the seed
schedule alone, tournament selection returns the first candidate twice,
crossover swaps nothing, mutation is the identity, the neighborhood is
empty, every task has "optimal timing", and every random draw is 1/2
(crossover always fires, mutation never). -/
def demoOps : OptimOps where
  genInitialPopulation := fun _ _ => [sOverlap]
  tournamentSelect := fun pop => (pop.headI, pop.headI)
  crossover := fun a b => (a, b)
  mutate := fun s => s
  getNeighbors := fun _ => []
  isOptimalTiming := fun _ => true
  rnd := fun _ => 1 / 2

/-- The tasks of `sOverlap` sorted by start time — what
`schedule_orders` returns in the C6 run. -/
def c6Result : List ScheduledTask :=
  [mkTask "o1" "cake_mix" 0 60 ["oven"], mkTask "o1" "cake_bake" 30 90 ["oven"],
   mkTask "o1" "cake_rest" 60 20 ["oven"]]

/-- The fixed point of the optimizer loop body in the C6 run (reached
after two iterations), parametrized by the random counter. -/
def fixState (k : Nat) : LoopState :=
  ⟨List.replicate 130 sOverlap, some sOverlap, (qOverlap : WithBot ℚ), stOverlap, k⟩

/-- The feasibility-at-evaluation invariant behind claim C6: the best
schedule tracked by `_schedule_batch` is either absent or passed
`_is_feasible` (from the cache state current at its evaluation). -/
def GatePassed (recipes : List Recipe) (best : Option (List ScheduledTask)) : Prop :=
  best = none ∨
    ∃ s st₀ st₁, best = some s ∧ isFeasibleRun recipes st₀ s = .ok (true, st₁)

/-- Claim C3's first step: 10 minutes on the mixer, no immediacy flag. -/
def stepGMix : ProductionStep := ⟨"mix", 10, true, false, true, false, 1, ["mixer"]⟩

/-- Claim C3's second step: 30 minutes on the oven, flagged
must-follow-immediately. -/
def stepGBake : ProductionStep := ⟨"bake", 30, false, true, false, true, 1, ["oven"]⟩

/-- Claim C3's recipe: mix then bake, where bake must immediately follow
mix. -/
def recipeG : Recipe := ⟨"gateau", [stepGMix, stepGBake], false, 0, 1, 10⟩

/-- Claim C3's first order (earlier delivery slot). -/
def og1 : Order := ⟨"g1", 1, 1, [⟨"gateau", 2⟩]⟩

/-- Claim C3's second order (later delivery slot). -/
def og2 : Order := ⟨"g2", 1, 2, [⟨"gateau", 2⟩]⟩

/-- Claim C4's step: base duration 10 with scaling factor 3. -/
def stepScaled : ProductionStep := ⟨"scale", 10, true, false, false, false, 3, ["oven"]⟩

/-- Claim C4's recipe around `stepScaled`. -/
def recipeScaled : Recipe := ⟨"scone", [stepScaled], false, 0, 1, 10⟩

/-- Claim C4's order: quantity 4 of the scaled product. -/
def oScaled : Order := ⟨"s1", 1, 1, [⟨"scone", 4⟩]⟩

/-- Claim C8's order: delivery date in the past relative to `today = 5`. -/
def oPast : Order := ⟨"p1", 2, 1, [⟨"cake", 1⟩]⟩

/-- Decidable equality on `Except` results (componentwise). -/
instance {ε α : Type} [DecidableEq ε] [DecidableEq α] : DecidableEq (Except ε α) := fun a b =>
  match a, b with
  | .error e, .error e' =>
      if h : e = e' then isTrue (by rw [h]) else isFalse (by intro hh; cases hh; exact h rfl)
  | .ok x, .ok y =>
      if h : x = y then isTrue (by rw [h]) else isFalse (by intro hh; cases hh; exact h rfl)
  | .error _, .ok _ => isFalse (by intro hh; cases hh)
  | .ok _, .error _ => isFalse (by intro hh; cases hh)

/-- The task scheduled for order `g1`'s `mix` step in the claim C3 run. -/
def gA1 : ScheduledTask := ⟨"g1", "mix", 0, 10, ["mixer"], 2, "pending"⟩

/-- The task scheduled for order `g1`'s `bake` step in the claim C3 run. -/
def gB1 : ScheduledTask := ⟨"g1", "bake", 10, 40, ["oven"], 2, "pending"⟩

/-- The task scheduled for order `g2`'s `mix` step in the claim C3 run:
the mixer is busy until minute 10, so it runs on `[10, 20)`. -/
def gA2 : ScheduledTask := ⟨"g2", "mix", 10, 20, ["mixer"], 2, "pending"⟩

/-- The task scheduled for order `g2`'s `bake` step in the claim C3 run:
the oven is busy until minute 40, so it starts at 40 — not at minute 20
where `g2`'s `mix` ends, although `bake` is flagged
must-follow-immediately. -/
def gB2 : ScheduledTask := ⟨"g2", "bake", 40, 70, ["oven"], 2, "pending"⟩

/-- The single task generated for the scaled recipe of claim C4: its
duration is the step's base duration 10, with the scaling factor 3 never
applied. -/
def tScaled : ScheduledTask := ⟨"s1", "scale", 0, 10, ["oven"], 4, "pending"⟩

/-- The cache state left by scoring `s3demo` from a fresh state: the
mixer's interval is recorded, and no order id is marked valid (the
precedence check failed). -/
def st3demo : SchedState := ⟨[], [("mixer", [(0, 10)])]⟩

/-! ## Evaluation and structure lemmas -/

/-- Scoring the C6 seed schedule from a fresh cache: the consecutive-pair
test never fires (first encounter of the oven), the precedence check
passes, and the caches move to `stOverlap`. -/
theorem scoreRun_fresh : scoreRun demoRecipes demoOps.isOptimalTiming emptySchedState sOverlap
    = .ok ((qOverlap : WithBot ℚ), stOverlap) := rfl

/-- Scoring the C6 seed schedule from `stOverlap` is idempotent: the
oven is cached, but its intervals in list order never show a
consecutive-pair overlap (`60 ≤ 60` and `20 ≤ 30`), and `o1` sits in the
dependency cache. -/
theorem scoreRun_fix : scoreRun demoRecipes demoOps.isOptimalTiming stOverlap sOverlap
    = .ok ((qOverlap : WithBot ℚ), stOverlap) := rfl

/-- Scoring a replicated population threads an idempotent evaluation
through unchanged state. -/
theorem scoreAll_replicate {R : List Recipe} {f : ScheduledTask → Bool} {st : SchedState}
    {s : List ScheduledTask} {v : WithBot ℚ} (h : scoreRun R f st s = .ok (v, st)) :
    ∀ n, scoreAll R f st (List.replicate n s) = .ok (List.replicate n (s, v), st) := by
  intro n
  induction n with
  | zero => simp [scoreAll, List.replicate]
  | succ m ih =>
      rw [List.replicate_succ, List.replicate_succ]
      simp only [scoreAll, h, ih]

/-- A constant list is sorted under any reflexive-at-the-element
relation. -/
theorem sorted_replicate {α : Type} (r : α → α → Prop) (x : α) (hx : r x x) (n : Nat) :
    List.Sorted r (List.replicate n x) := by
  induction n with
  | zero => simp
  | succ m ih =>
      rw [List.replicate_succ, List.sorted_cons]
      exact ⟨fun b hb => (List.eq_of_mem_replicate hb) ▸ hx, ih⟩

/-- Sorting a constant list is the identity. -/
theorem insertionSort_replicate {α : Type} (r : α → α → Prop) [DecidableRel r]
    (x : α) (hx : r x x) (n : Nat) :
    List.insertionSort r (List.replicate n x) = List.replicate n x :=
  (sorted_replicate r x hx n).insertionSort_eq

/-- Elite selection from a constant scored population keeps the last two
entries (all of them when fewer). -/
theorem elitePairs_replicate (p : List ScheduledTask × WithBot ℚ) (n : Nat) :
    elitePairs (List.replicate n p) = List.replicate (n - (n - 2)) p := by
  simp [elitePairs, insertionSort_replicate scoreLe p (le_refl p.2) n, List.drop_replicate]

/-- The first-maximal fold of `max(..., key=...)` on a constant list
returns the first element. -/
theorem foldl_max_const (p : List ScheduledTask × WithBot ℚ) (n : Nat) :
    (List.replicate n p).foldl (fun best q => if q.2 > best.2 then q else best) p = p := by
  induction n with
  | zero => rfl
  | succ m ih => rw [List.replicate_succ, List.foldl_cons, ite_self]; exact ih

/-- `max` by stateful score over a nonempty constant population. -/
theorem maxByScore_replicate {R : List Recipe} {f : ScheduledTask → Bool} {st : SchedState}
    {s : List ScheduledTask} {v : WithBot ℚ} (h : scoreRun R f st s = .ok (v, st)) (n : Nat) :
    maxByScore R f st (List.replicate (n + 1) s) = .ok ((s, v), st) := by
  simp only [maxByScore]
  rw [scoreAll_replicate h (n + 1), List.replicate_succ]
  simp [foldl_max_const]

/-- With the empty neighborhood of `demoOps`, all twenty local-search
rounds are no-ops. -/
theorem localSearch_demo (R : List Recipe) (st : SchedState) (s : List ScheduledTask) :
    localSearch R demoOps st s = .ok (s, st) := rfl

/-- The population-refill loop under `demoOps` — every draw selects
crossover (`1/2 < 0.8`) and never mutation (`¬ 1/2 < 0.2`), and
crossover copies the tournament pick, the head of the population — adds
two copies of the seed per round and consumes three random draws. -/
theorem breed_demo (pop : List (List ScheduledTask)) (hpop : pop.headI = sOverlap) :
    ∀ (n fuel k : Nat) (acc : List (List ScheduledTask)),
      n ≤ fuel → acc.length + 2 * n = population_size →
      breed demoOps pop fuel k acc = (acc ++ List.replicate (2 * n) sOverlap, k + 3 * n) := by
  intro n
  induction n with
  | zero =>
      intro fuel k acc _ hlen
      cases fuel with
      | zero => simp [breed]
      | succ f =>
          simp only [breed]
          rw [if_neg (by omega : ¬ (acc.length < population_size))]
          simp
  | succ m ih =>
      intro fuel k acc hfuel hlen
      cases fuel with
      | zero => omega
      | succ f =>
          simp only [breed]
          rw [if_pos (by simp only [population_size] at hlen ⊢; omega
            : acc.length < population_size)]
          rw [if_pos (show demoOps.rnd k < crossover_rate by
                show (1 : ℚ) / 2 < crossover_rate
                norm_num [crossover_rate])]
          change breed demoOps pop f (k + 3)
              (acc ++ [if demoOps.rnd (k + 1) < mutation_rate then pop.headI else pop.headI,
                       if demoOps.rnd (k + 2) < mutation_rate then pop.headI else pop.headI]) = _
          rw [ite_self, ite_self, hpop]
          have hlen' : (acc ++ [sOverlap, sOverlap]).length + 2 * m = population_size := by
            simp [List.length_append]; simp only [population_size] at hlen ⊢; omega
          rw [show breed demoOps pop f (k + 3) (acc ++ [sOverlap, sOverlap])
                = ((acc ++ [sOverlap, sOverlap]) ++ List.replicate (2 * m) sOverlap,
                    (k + 3) + 3 * m)
              from ih f (k + 3) (acc ++ [sOverlap, sOverlap]) (by omega) hlen']
          simp only [Prod.mk.injEq]
          refine ⟨?_, by omega⟩
          rw [List.append_assoc]
          rw [show 2 * (m + 1) = (2 * m + 1) + 1 by ring]
          simp [List.replicate_succ]

/-- Evaluation rule for one generation of `_schedule_batch`, given the
results of its five stages: scoring the population, refilling it by
breeding, appending the elite, picking and locally improving the best
candidate, and re-scoring it. -/
theorem schedIteration_ok_of {R : List Recipe} {ops : OptimOps} (ls : LoopState)
    {scored : List (List ScheduledTask × WithBot ℚ)} {st1 : SchedState}
    {np : List (List ScheduledTask)} {k1 : Nat} {pool : List (List ScheduledTask)}
    {bc : List ScheduledTask × WithBot ℚ} {st2 : SchedState}
    {improved : List ScheduledTask} {st3 : SchedState}
    {score : WithBot ℚ} {st4 : SchedState}
    (h1 : scoreAll R ops.isOptimalTiming ls.cache ls.population = .ok (scored, st1))
    (hb : breed ops ls.population breedFuel ls.k [] = (np, k1))
    (hp : np ++ (elitePairs scored).map (fun p => p.1) = pool)
    (h2 : maxByScore R ops.isOptimalTiming st1 pool = .ok (bc, st2))
    (h3 : localSearch R ops st2 bc.1 = .ok (improved, st3))
    (h4 : scoreRun R ops.isOptimalTiming st3 improved = .ok (score, st4)) :
    schedIteration R ops ls =
      if ls.best_score < score then .ok ⟨pool, some improved, score, st4, k1⟩
      else .ok ⟨pool, ls.best_schedule, ls.best_score, st4, k1⟩ := by
  simp only [schedIteration, h1, hb, hp, h2, h3, h4]

/-- The first generation of the C6 run: the singleton population is
scored (feasible, caching the oven and order `o1`), 128 seed copies are
bred, the single elite candidate is appended, local search is a no-op,
and the seed becomes `best_schedule` with its finite score. -/
theorem schedIteration_demo1 :
    schedIteration demoRecipes demoOps ⟨[sOverlap], none, ⊥, emptySchedState, 0⟩
      = .ok ⟨List.replicate 129 sOverlap, some sOverlap, (qOverlap : WithBot ℚ), stOverlap,
          192⟩ := by
  have hb := breed_demo [sOverlap] rfl 64 breedFuel 0 []
    (by norm_num [breedFuel, population_size]) (by norm_num [population_size])
  norm_num at hb
  refine (schedIteration_ok_of ⟨[sOverlap], none, ⊥, emptySchedState, 0⟩
    (show scoreAll demoRecipes demoOps.isOptimalTiming emptySchedState [sOverlap]
        = .ok ([(sOverlap, (qOverlap : WithBot ℚ))], stOverlap) from rfl)
    hb
    (show List.replicate 128 sOverlap
        ++ (elitePairs [(sOverlap, (qOverlap : WithBot ℚ))]).map (fun p => p.1)
        = List.replicate 129 sOverlap from rfl)
    (maxByScore_replicate scoreRun_fix 128)
    (localSearch_demo demoRecipes stOverlap sOverlap) scoreRun_fix).trans ?_
  rw [if_pos (WithBot.bot_lt_coe qOverlap)]

/-- Every later generation of the C6 run is stationary apart from the
random counter: the population settles at 130 seed copies (128 bred plus
two elite), and the seed's score never strictly improves on itself. -/
theorem schedIteration_demoBig (n k : Nat) (h : 2 ≤ n) :
    schedIteration demoRecipes demoOps
      ⟨List.replicate n sOverlap, some sOverlap, (qOverlap : WithBot ℚ), stOverlap, k⟩
      = .ok ⟨List.replicate 130 sOverlap, some sOverlap, (qOverlap : WithBot ℚ), stOverlap,
          k + 192⟩ := by
  obtain ⟨m, rfl⟩ : ∃ m, n = m + 2 := ⟨n - 2, by omega⟩
  have hb := breed_demo (List.replicate (m + 2) sOverlap) (by rw [List.replicate_succ]; rfl)
      64 breedFuel k [] (by norm_num [breedFuel, population_size])
      (by norm_num [population_size])
  norm_num at hb
  have hp : List.replicate 128 sOverlap
      ++ (elitePairs (List.replicate (m + 2) (sOverlap, (qOverlap : WithBot ℚ)))).map
          (fun p => p.1)
      = List.replicate 130 sOverlap := by
    rw [elitePairs_replicate, show (m + 2) - ((m + 2) - 2) = 2 from by omega]
    rw [show (List.replicate 2 (sOverlap, (qOverlap : WithBot ℚ))).map (fun p => p.1)
          = List.replicate 2 sOverlap from rfl]
    rw [← List.replicate_add]
  refine (schedIteration_ok_of
    ⟨List.replicate (m + 2) sOverlap, some sOverlap, (qOverlap : WithBot ℚ), stOverlap, k⟩
    (scoreAll_replicate scoreRun_fix (m + 2)) hb hp
    (maxByScore_replicate scoreRun_fix 129)
    (localSearch_demo demoRecipes stOverlap sOverlap) scoreRun_fix).trans ?_
  rw [if_neg (lt_irrefl ((qOverlap : ℚ) : WithBot ℚ))]
/-- Unfolding one successful generation of the iteration loop. -/
theorem runIters_succ_ok (R : List Recipe) (ops : OptimOps) (n : Nat) (ls ls' : LoopState)
    (h : schedIteration R ops ls = .ok ls') :
    runIters R ops (n + 1) ls = runIters R ops n ls' := by
  simp only [runIters, h]


/-- Iterating from the stationary loop state only advances the random
counter. -/
theorem runIters_demoFix : ∀ (n k : Nat),
    runIters demoRecipes demoOps n
      ⟨List.replicate 130 sOverlap, some sOverlap, (qOverlap : WithBot ℚ), stOverlap, k⟩
      = .ok ⟨List.replicate 130 sOverlap, some sOverlap, (qOverlap : WithBot ℚ), stOverlap,
          k + 192 * n⟩ := by
  intro n
  induction n with
  | zero =>
      intro k
      rw [Nat.mul_zero, Nat.add_zero]
      rfl
  | succ m ih =>
      intro k
      rw [runIters_succ_ok _ _ m _ _ (schedIteration_demoBig 130 k (by norm_num)),
        ih (k + 192), show k + 192 + 192 * m = k + 192 * (m + 1) from by ring]

/-- The full 50-generation optimizer run of the C6 scenario: the seed
schedule is returned as `best_schedule`. -/
theorem runIters_demoFull :
    runIters demoRecipes demoOps max_iterations ⟨[sOverlap], none, ⊥, emptySchedState, 0⟩
      = .ok ⟨List.replicate 130 sOverlap, some sOverlap, (qOverlap : WithBot ℚ), stOverlap,
          9600⟩ := by
  rw [show max_iterations = 50 from rfl]
  calc runIters demoRecipes demoOps 50 ⟨[sOverlap], none, ⊥, emptySchedState, 0⟩
      = runIters demoRecipes demoOps 49
          ⟨List.replicate 129 sOverlap, some sOverlap, (qOverlap : WithBot ℚ), stOverlap,
            192⟩ :=
        runIters_succ_ok _ _ 49 _ _ schedIteration_demo1
    _ = runIters demoRecipes demoOps 48
          ⟨List.replicate 130 sOverlap, some sOverlap, (qOverlap : WithBot ℚ), stOverlap,
            192 + 192⟩ :=
        runIters_succ_ok _ _ 48 _ _ (schedIteration_demoBig 129 192 (by norm_num))
    _ = .ok ⟨List.replicate 130 sOverlap, some sOverlap, (qOverlap : WithBot ℚ), stOverlap,
          192 + 192 + 192 * 48⟩ := runIters_demoFix 48 (192 + 192)
    _ = .ok ⟨List.replicate 130 sOverlap, some sOverlap, (qOverlap : WithBot ℚ), stOverlap,
          9600⟩ := by norm_num

/-- `_schedule_batch` on a successful iteration run returns the tracked
best schedule together with the final caches and random counter. -/
theorem scheduleBatch_ok (R : List Recipe) (ops : OptimOps) (st : SchedState) (k : Nat)
    (orders : List Order) (recipe : Recipe) (ls : LoopState)
    (h : runIters R ops max_iterations
        ⟨ops.genInitialPopulation orders recipe, none, ⊥, st, k⟩ = .ok ls) :
    scheduleBatch R ops st k orders recipe = .ok (ls.best_schedule, ls.cache, ls.k) := by
  simp only [scheduleBatch, h]

/-- The C6 batch run returns the overlapping seed schedule. -/
theorem scheduleBatch_demo :
    scheduleBatch demoRecipes demoOps emptySchedState 0 [o1demo] demoRecipe
      = .ok (some sOverlap, stOverlap, 9600) :=
  scheduleBatch_ok demoRecipes demoOps emptySchedState 0 [o1demo] demoRecipe
    ⟨List.replicate 130 sOverlap, some sOverlap, (qOverlap : WithBot ℚ), stOverlap, 9600⟩
    runIters_demoFull

/-- One successful batch step of the `schedule_orders` loop. -/
theorem scheduleOrdersGo_cons_ok (R : List Recipe) (ops : OptimOps) {pt : String}
    {batchOrders : List Order} {rest : List (String × List Order)} {st : SchedState}
    {k : Nat} {allTasks : List ScheduledTask} {recipe : Recipe}
    {bt : List ScheduledTask} {st' : SchedState} {k' : Nat}
    (hrec : recipesLookup R pt = some recipe)
    (hb : scheduleBatch R ops st k batchOrders recipe = .ok (some bt, st', k')) :
    scheduleOrdersGo R ops ((pt, batchOrders) :: rest) st k allTasks
      = scheduleOrdersGo R ops rest st' k' (allTasks ++ bt) := by
  simp only [scheduleOrdersGo, hrec, hb]

/-- The C6 entry-point run: `schedule_orders` returns the seed's tasks
sorted by start time. -/
theorem scheduleOrders_demo :
    scheduleOrders demoRecipes demoOps [o1demo] = .ok c6Result := by
  have h1 : scheduleOrders demoRecipes demoOps [o1demo]
      = scheduleOrdersGo demoRecipes demoOps [("cake", [o1demo])] emptySchedState 0 [] := rfl
  rw [h1, scheduleOrdersGo_cons_ok demoRecipes demoOps
    (show recipesLookup demoRecipes "cake" = some demoRecipe from rfl) scheduleBatch_demo]
  rfl

/-- A finite score certifies that the feasibility gate passed at the
evaluation's cache state. -/
theorem scoreRun_ok_ne_bot {R : List Recipe} {f : ScheduledTask → Bool} {st : SchedState}
    {s : List ScheduledTask} {w : WithBot ℚ} {st' : SchedState}
    (h : scoreRun R f st s = .ok (w, st')) (hw : w ≠ ⊥) :
    isFeasibleRun R st s = .ok (true, st') := by
  unfold scoreRun at h
  cases hfe : isFeasibleRun R st s with
  | error e => rw [hfe] at h; cases h
  | ok p =>
      rw [hfe] at h
      obtain ⟨b, st''⟩ := p
      cases b with
      | false => simp at h; exact absurd h.1.symm hw
      | true => simp at h; rw [h.2]


/-- One generation preserves the gate-passed invariant on
`best_schedule`: an update only happens on a strict score improvement,
which rules out `-inf`. -/
theorem schedIteration_gate {R : List Recipe} {ops : OptimOps} {ls ls' : LoopState}
    (h : schedIteration R ops ls = .ok ls') (hg : GatePassed R ls.best_schedule) :
    GatePassed R ls'.best_schedule := by
  unfold schedIteration at h
  split at h
  · cases h
  · simp only [] at h
    split at h
    · cases h
    · split at h
      · cases h
      · split at h
        · cases h
        · split at h
          · rename_i x3 improved st3 hloc x4 v st4 hscore hlt
            injection h with h'
            subst h'
            right
            exact ⟨improved, st3, st4, rfl,
              scoreRun_ok_ne_bot hscore (fun hb => absurd (hb ▸ hlt) not_lt_bot)⟩
          · injection h with h'
            subst h'
            exact hg

/-- The iteration loop preserves the gate-passed invariant. -/
theorem runIters_gate {R : List Recipe} {ops : OptimOps} :
    ∀ (n : Nat) {ls ls' : LoopState}, runIters R ops n ls = .ok ls' →
      GatePassed R ls.best_schedule → GatePassed R ls'.best_schedule := by
  intro n
  induction n with
  | zero =>
      intro ls ls' h hg
      unfold runIters at h
      injection h with h'
      subst h'
      exact hg
  | succ m ih =>
      intro ls ls' h hg
      unfold runIters at h
      split at h
      · cases h
      · rename_i ls1 heq
        exact ih h (schedIteration_gate heq hg)

/-- A schedule returned by `_schedule_batch` passed the (stateful)
feasibility gate at the moment it was scored. -/
theorem scheduleBatch_gate {R : List Recipe} {ops : OptimOps} {st : SchedState} {k : Nat}
    {orders : List Order} {recipe : Recipe} {s : List ScheduledTask} {st' : SchedState}
    {k' : Nat}
    (h : scheduleBatch R ops st k orders recipe = .ok (some s, st', k')) :
    ∃ st₀ st₁, isFeasibleRun R st₀ s = .ok (true, st₁) := by
  unfold scheduleBatch at h
  split at h
  · cases h
  · rename_i ls heq
    injection h with h'
    have hbs : ls.best_schedule = some s := by
      have h1 := congrArg Prod.fst h'
      simpa using h1
    have hg := runIters_gate max_iterations heq (Or.inl rfl)
    rcases hg with hnone | ⟨s', st₀, st₁, hb, hf⟩
    · rw [hbs] at hnone; cases hnone
    · rw [hbs] at hb
      injection hb with hb'
      subst hb'
      exact ⟨st₀, st₁, hf⟩

/-- Every successful result of the `schedule_orders` loop is the final
start-time sort. -/
theorem scheduleOrdersGo_sorted (R : List Recipe) (ops : OptimOps) :
    ∀ (l : List (String × List Order)) (st : SchedState) (k : Nat)
      (acc ts : List ScheduledTask),
      scheduleOrdersGo R ops l st k acc = .ok ts → List.Sorted taskStartLe ts := by
  intro l
  induction l with
  | nil =>
      intro st k acc ts h
      unfold scheduleOrdersGo at h
      injection h with h'
      subst h'
      exact List.sorted_insertionSort taskStartLe acc
  | cons hd tl ih =>
      intro st k acc ts h
      obtain ⟨pt, batchOrders⟩ := hd
      unfold scheduleOrdersGo at h
      split at h
      · cases h
      · split at h
        · cases h
        · cases h
        · exact ih _ _ _ _ h

/-- A sorted scored population with at least two finite scores has no
`-inf` entry among its last two elements. -/
theorem elite_ne_bot :
    ∀ (l : List (List ScheduledTask × WithBot ℚ)), List.Sorted scoreLe l →
      2 ≤ (l.filter (fun p => p.2 ≠ ⊥)).length →
      ∀ p ∈ l.drop (l.length - 2), p.2 ≠ ⊥ := by
  intro l
  induction l with
  | nil => intro _ h2 p hp; simp at h2
  | cons x xs ih =>
      intro hs h2 p hp
      rw [List.sorted_cons] at hs
      obtain ⟨hx_le, hxs⟩ := hs
      by_cases hx : x.2 = ⊥
      · have hfil : ((x :: xs).filter (fun p => decide (p.2 ≠ ⊥))).length
            = (xs.filter (fun p => decide (p.2 ≠ ⊥))).length := by
          simp [List.filter_cons, hx]
        rw [hfil] at h2
        rcases Nat.lt_or_ge xs.length 2 with hlen | hlen
        · have hle := List.length_filter_le (fun p => decide (p.2 ≠ ⊥)) xs
          omega
        · rw [show (x :: xs).length - 2 = (xs.length - 2) + 1 from by
              simp [List.length_cons]; omega] at hp
          rw [List.drop_succ_cons] at hp
          exact ih hxs h2 p hp
      · rcases List.mem_cons.mp (List.drop_subset _ _ hp) with rfl | hpxs
        · exact hx
        · intro hb
          exact hx (le_bot_iff.mp (hb ▸ hx_le p hpxs))

/-- An infeasible schedule scores `-inf` under the fitness function. -/
theorem scoreRun_infeasible {R : List Recipe} {f : ScheduledTask → Bool} {st : SchedState}
    {s : List ScheduledTask} {st' : SchedState}
    (h : isFeasibleRun R st s = .ok (false, st')) :
    scoreRun R f st s = .ok ((⊥ : WithBot ℚ), st') := by
  unfold scoreRun
  rw [h]
  rfl

/-- With at least two finite-scored candidates, elite selection picks
only finite-scored ones. -/
theorem elitePairs_ne_bot (scored : List (List ScheduledTask × WithBot ℚ))
    (h2 : 2 ≤ (scored.filter (fun p => p.2 ≠ ⊥)).length) :
    ∀ p ∈ elitePairs scored, p.2 ≠ ⊥ := by
  intro p hp
  have hcount := ((List.perm_insertionSort scoreLe scored).filter
    (fun p => decide (p.2 ≠ ⊥))).length_eq
  exact elite_ne_bot (List.insertionSort scoreLe scored)
    (List.sorted_insertionSort scoreLe scored) (by rw [hcount]; exact h2) p hp

/-- Every task built by the step loop of the heuristic generator names a
recipe step, runs for exactly that step's duration from some start, uses
that step's resources, and carries the passed batch quantity and status
`'pending'`. -/
theorem genSteps_shape (findSlot : Int → Int → List String → Timeline → Int)
    (oid : String) (qty : Int) (startTimes : Nat → Int) :
    ∀ (steps : List ProductionStep) (idx : Nat) (tl : Timeline),
      ∀ t ∈ (genSteps findSlot oid qty startTimes steps idx tl).1,
        ∃ s ∈ steps, ∃ a : Int,
          t = ⟨oid, s.name, a, a + s.duration, s.resources, qty, "pending"⟩ := by
  intro steps
  induction steps with
  | nil => intro idx tl t ht; simp [genSteps] at ht
  | cons step rest ih =>
      intro idx tl t ht
      rw [show (genSteps findSlot oid qty startTimes (step :: rest) idx tl).1
            = (⟨oid, step.name, findSlot (startTimes idx) step.duration step.resources tl,
                findSlot (startTimes idx) step.duration step.resources tl + step.duration,
                step.resources, qty, "pending"⟩ : ScheduledTask)
              :: (genSteps findSlot oid qty startTimes rest (idx + 1)
                  (step.resources.foldl (fun tt r => timelineInsort tt r
                    (findSlot (startTimes idx) step.duration step.resources tl,
                     findSlot (startTimes idx) step.duration step.resources tl
                       + step.duration)) tl)).1
          from rfl] at ht
      rcases List.mem_cons.mp ht with rfl | hrest
      · exact ⟨step, List.mem_cons_self _ _,
          findSlot (startTimes idx) step.duration step.resources tl, rfl⟩
      · obtain ⟨s, hs, a, ha⟩ := ih (idx + 1) _ t hrest
        exact ⟨s, List.mem_cons_of_mem _ hs, a, ha⟩

/-- Every task built by the order loop of the heuristic generator comes
from some order and some recipe step, with the order's first item's
quantity as batch size. -/
theorem genOrders_shape (ces : Order → Recipe → Timeline → Nat → Int)
    (findSlot : Int → Int → List String → Timeline → Int) (recipe : Recipe) :
    ∀ (orders : List Order) (tl : Timeline),
      ∀ t ∈ genOrders ces findSlot recipe orders tl,
        ∃ o ∈ orders, ∃ s ∈ recipe.steps, ∃ a : Int,
          t = ⟨o.id, s.name, a, a + s.duration, s.resources,
            (o.items.headI).quantity, "pending"⟩ := by
  intro orders
  induction orders with
  | nil => intro tl t ht; simp [genOrders] at ht
  | cons o os ih =>
      intro tl t ht
      rw [show genOrders ces findSlot recipe (o :: os) tl
            = (genSteps findSlot o.id (o.items.headI).quantity (ces o recipe tl)
                recipe.steps 0 tl).1
              ++ genOrders ces findSlot recipe os
                  (genSteps findSlot o.id (o.items.headI).quantity (ces o recipe tl)
                    recipe.steps 0 tl).2
          from rfl] at ht
      rcases List.mem_append.mp ht with h1 | h2
      · obtain ⟨s, hs, a, ha⟩ := genSteps_shape findSlot o.id (o.items.headI).quantity
          (ces o recipe tl) recipe.steps 0 tl t h1
        exact ⟨o, List.mem_cons_self _ _, s, hs, a, ha⟩
      · obtain ⟨o', ho', s, hs, a, ha⟩ := ih _ t h2
        exact ⟨o', List.mem_cons_of_mem _ ho', s, hs, a, ha⟩

/-- Shape of every task produced by
`_generate_heuristic_schedule`, for any instantiation of the two
undefined helpers. -/
theorem generateHeuristicSchedule_shape (ces : Order → Recipe → Timeline → Nat → Int)
    (findSlot : Int → Int → List String → Timeline → Int)
    (orders : List Order) (recipe : Recipe) :
    ∀ t ∈ generateHeuristicSchedule ces findSlot orders recipe,
      ∃ o ∈ orders, ∃ s ∈ recipe.steps, ∃ a : Int,
        t = ⟨o.id, s.name, a, a + s.duration, s.resources,
          (o.items.headI).quantity, "pending"⟩ := by
  intro t ht
  obtain ⟨o, ho, s, hs, a, ha⟩ := genOrders_shape ces findSlot recipe
    (List.insertionSort orderKeyLe orders) [] t ht
  exact ⟨o, (List.perm_insertionSort orderKeyLe orders).mem_iff.mp ho, s, hs, a, ha⟩

/-- The greedy batch plan covers the quantity and keeps every batch
within the bounds (policy (b): a small remainder becomes a full
`minBatchSize` batch). -/
theorem batchPlanGo_spec (minB maxB : Nat) (h2 : 0 < minB) (h3 : minB ≤ maxB) :
    ∀ qty, 0 < qty →
      qty ≤ (batchPlanGo minB maxB qty).sum
      ∧ ∀ b ∈ batchPlanGo minB maxB qty, minB ≤ b ∧ b ≤ maxB := by
  intro qty
  induction qty using Nat.strong_induction_on with
  | _ qty ih =>
      intro hq
      rw [batchPlanGo]
      split
      · rename_i hcond
        have hrec := ih (qty - maxB) (by omega) (by omega)
        refine ⟨?_, ?_⟩
        · simp only [List.sum_cons]
          omega
        · intro b hb
          rcases List.mem_cons.mp hb with rfl | hb'
          · exact ⟨h3, le_refl _⟩
          · exact hrec.2 b hb'
      · rename_i hcond
        split
        · rename_i hmin
          refine ⟨by simp, ?_⟩
          intro b hb
          simp only [List.mem_singleton] at hb
          subst hb
          exact ⟨hmin, by omega⟩
        · rename_i hmin
          refine ⟨by simp; omega, ?_⟩
          intro b hb
          simp only [List.mem_singleton] at hb
          subst hb
          exact ⟨le_refl _, h3⟩

/-! ## Claim theorems -/

/-- Claim C1 (code_bug): the capacity invariant does not hold — the
feasibility gate `_is_feasible` never reads the configured capacities
and performs no overlap check at all on the first encounter of a
resource (the `cached` value it fetches is unused).  From a fresh
scheduler it accepts `s1demo`, whose `cake_mix` and `cake_bake` tasks
both hold the oven during `[30, 60)`, so at instant 30 two tasks consume
the oven whose configured capacity is 1. -/
theorem C1_capacity_unchecked :
    isFeasibleRun demoRecipes emptySchedState s1demo = .ok (true, st1demo)
    ∧ concurrentAt s1demo "oven" 30 = 2
    ∧ resourceCapacity "oven" = 1
    ∧ resourceCapacity "oven" < concurrentAt s1demo "oven" 30 :=
  ⟨rfl, rfl, rfl, by decide⟩

/-- Claim C2 (code_bug): the recipe-order invariant does not hold across
a run — `_is_feasible` caches validity per order id, so after schedule
`sAdemo` (order `o2` in correct step order) is accepted, schedule
`sBdemo` — the same order with `bake` scheduled before `mix` — skips the
precedence check entirely and is accepted as well, although its tasks
sorted by start time name the steps out of recipe order. -/
theorem C2_order_cache_skip :
    isFeasibleRun demoRecipes emptySchedState sAdemo = .ok (true, stAdemo)
    ∧ isFeasibleRun demoRecipes stAdemo sBdemo = .ok (true, stAdemo)
    ∧ stepsByStart sBdemo "o2" = ["bake", "mix", "rest"]
    ∧ demoRecipe.steps.map (fun s => s.name) = ["mix", "bake", "rest"]
    ∧ stepsByStart sBdemo "o2" ≠ demoRecipe.steps.map (fun s => s.name) :=
  ⟨rfl, rfl, rfl, rfl, by decide⟩

/-- Claim C3 (code_bug): `_generate_heuristic_schedule` never reads
`mustFollowImmediately`.  With the slot finder and earliest-start
helpers modelled from the spec, order `g2`'s `bake` step — flagged
must-follow-immediately — is pushed to the next oven-free slot at minute
40 instead of starting at minute 20 where `g2`'s `mix` ends. -/
theorem C3_immediate_flag_ignored :
    generateHeuristicSchedule cesChain (slotFinderSimple 100) [og1, og2] recipeG
      = [gA1, gB1, gA2, gB2]
    ∧ stepGBake.mustFollowImmediately = true
    ∧ gA2.orderId = "g2" ∧ gB2.orderId = "g2"
    ∧ gB2.startTime = 40 ∧ gA2.endTime = 20
    ∧ gB2.startTime ≠ gA2.endTime :=
  ⟨rfl, rfl, rfl, rfl, rfl, rfl, by decide⟩

/-- Claim C4 (corrected), counterexample to the claim as stated: the
generator never applies `scalingFactor` (or any batch adjustment).  For
the step with base duration 10 and scaling factor 3 the produced task's
duration is 10, while the claimed formula gives
`round(10 × 3 × adjustment) = 30` even at the neutral adjustment 1. -/
theorem C4_duration_claim_counterexample :
    generateHeuristicSchedule cesChain (slotFinderSimple 100) [oScaled] recipeScaled
      = [tScaled]
    ∧ tScaled.duration = 10
    ∧ stepScaled.scalingFactor = 3
    ∧ claimedDuration stepScaled 1 = 30
    ∧ tScaled.duration ≠ claimedDuration stepScaled 1 :=
  ⟨rfl, rfl, rfl, by norm_num [claimedDuration, stepScaled], by
    rw [show claimedDuration stepScaled 1 = 30 from by norm_num [claimedDuration, stepScaled]]
    decide⟩

/-- Claim C4 (corrected, amended): every task the heuristic generator
produces — for any instantiation of the two undefined helpers — has
duration exactly its step's base duration (`scalingFactor` and batch
size are never applied), and that duration is positive whenever the
recipe's step durations are. -/
theorem C4_duration_equals_base (ces : Order → Recipe → Timeline → Nat → Int)
    (findSlot : Int → Int → List String → Timeline → Int)
    (orders : List Order) (recipe : Recipe)
    (hpos : ∀ s ∈ recipe.steps, 0 < s.duration) :
    ∀ t ∈ generateHeuristicSchedule ces findSlot orders recipe,
      ∃ s ∈ recipe.steps, t.step = s.name ∧ t.duration = s.duration ∧ 0 < t.duration := by
  intro t ht
  obtain ⟨o, ho, s, hs, a, rfl⟩ :=
    generateHeuristicSchedule_shape ces findSlot orders recipe t ht
  refine ⟨s, hs, rfl, ?_, ?_⟩
  · show a + s.duration - a = s.duration
    omega
  · have := hpos s hs
    show 0 < a + s.duration - a
    omega

/-- Witness for claim C4's amended theorem at the concrete C3 run. -/
theorem C4_duration_witness :
    (∀ s ∈ recipeG.steps, 0 < s.duration)
    ∧ ∃ s ∈ recipeG.steps, gA1.step = s.name ∧ gA1.duration = s.duration
        ∧ 0 < gA1.duration :=
  ⟨by decide, C4_duration_equals_base cesChain (slotFinderSimple 100) [og1, og2] recipeG
    (by decide) gA1 (by decide)⟩

/-- Claim C5 (confirmed, spec-modelled): for every positive quantity and
valid batch bounds, the BatchPlanner decomposition covers the quantity
(never under-produces) and keeps every batch — not just all but one —
inside `[minBatchSize, maxBatchSize]`. -/
theorem C5_batchplan_spec (minB maxB qty : Nat)
    (h1 : 0 < qty) (h2 : 0 < minB) (h3 : minB ≤ maxB) :
    ∃ bs, batchPlan minB maxB qty = .ok bs
      ∧ qty ≤ bs.sum ∧ ∀ b ∈ bs, minB ≤ b ∧ b ≤ maxB := by
  refine ⟨batchPlanGo minB maxB qty, ?_,
    (batchPlanGo_spec minB maxB h2 h3 qty h1).1, (batchPlanGo_spec minB maxB h2 h3 qty h1).2⟩
  unfold batchPlan
  rw [if_pos ⟨h1, h2, h3⟩]

/-- Witness for claim C5 at the spec's own scenario: quantity 15 with
bounds [3, 12] (the plan is [12, 3]). -/
theorem C5_batchplan_witness :
    ((0 : Nat) < 15 ∧ (0 : Nat) < 3 ∧ (3 : Nat) ≤ 12)
    ∧ ∃ bs, batchPlan 3 12 15 = .ok bs ∧ 15 ≤ bs.sum ∧ ∀ b ∈ bs, 3 ≤ b ∧ b ≤ 12 :=
  ⟨by decide, C5_batchplan_spec 3 12 15 (by decide) (by decide) (by decide)⟩

/-- Claim C6 (corrected), counterexample to the claim as stated: on
budget exhaustion the entry point can return an infeasible schedule.
In the concrete run the returned schedule's `cake_mix` and `cake_bake`
tasks both hold the oven at instant 45, exceeding its configured
capacity 1 — the stateful gate never re-detects the overlap because the
ill-formed `cake_rest` interval defeats the consecutive-pair test. -/
theorem C6_returns_infeasible_counterexample :
    scheduleOrders demoRecipes demoOps [o1demo] = .ok c6Result
    ∧ concurrentAt c6Result "oven" 45 = 2
    ∧ resourceCapacity "oven" = 1
    ∧ resourceCapacity "oven" < concurrentAt c6Result "oven" 45 :=
  ⟨scheduleOrders_demo, rfl, rfl, by decide⟩

/-- Claim C6 (corrected, amended): `_schedule_batch` returns either no
schedule (when no evaluated candidate ever scored above `-inf`; the
caller then fails) or a schedule that passed the stateful feasibility
gate at the moment it was scored. -/
theorem C6_best_gate_passed (R : List Recipe) (ops : OptimOps) (st : SchedState) (k : Nat)
    (orders : List Order) (recipe : Recipe)
    (res : Option (List ScheduledTask) × SchedState × Nat)
    (h : scheduleBatch R ops st k orders recipe = .ok res) :
    res.1 = none ∨ ∃ s st₀ st₁, res.1 = some s ∧ isFeasibleRun R st₀ s = .ok (true, st₁) := by
  obtain ⟨best, st', k'⟩ := res
  cases best with
  | none => exact Or.inl rfl
  | some s =>
      obtain ⟨st₀, st₁, hf⟩ := scheduleBatch_gate h
      exact Or.inr ⟨s, st₀, st₁, rfl, hf⟩

/-- Witness for claim C6's amended theorem at the concrete C6 batch
run. -/
theorem C6_best_gate_witness :
    ((some sOverlap, stOverlap, (9600 : Nat)) :
        Option (List ScheduledTask) × SchedState × Nat).1 = none
    ∨ ∃ s st₀ st₁,
        ((some sOverlap, stOverlap, (9600 : Nat)) :
          Option (List ScheduledTask) × SchedState × Nat).1 = some s
        ∧ isFeasibleRun demoRecipes st₀ s = .ok (true, st₁) :=
  C6_best_gate_passed demoRecipes demoOps emptySchedState 0 [o1demo] demoRecipe
    (some sOverlap, stOverlap, 9600) scheduleBatch_demo

/-- Claim C7 (corrected), counterexample to the claim as stated: with a
population of two copies of the always-infeasible `s3demo`, both scored
`-inf`, elite selection (`sorted(...)[-2:]`) still returns both — an
infeasible candidate is selected as elite when fewer than two feasible
candidates exist. -/
theorem C7_infeasible_elite_counterexample :
    scoreAll demoRecipes demoOps.isOptimalTiming emptySchedState [s3demo, s3demo]
      = .ok ([(s3demo, ⊥), (s3demo, ⊥)], st3demo)
    ∧ isFeasibleRun demoRecipes emptySchedState s3demo = .ok (false, st3demo)
    ∧ elitePairs [(s3demo, (⊥ : WithBot ℚ)), (s3demo, ⊥)] = [(s3demo, ⊥), (s3demo, ⊥)]
    ∧ ∃ p ∈ elitePairs [(s3demo, (⊥ : WithBot ℚ)), (s3demo, ⊥)], p.2 = ⊥ :=
  ⟨rfl, rfl, rfl, by decide⟩

/-- Claim C7 (corrected, amended): a candidate the feasibility gate
rejects scores exactly `-inf`, and whenever at least two candidates of
the scored population carry a finite score, no `-inf`-scored candidate
enters the two-member elite set. -/
theorem C7_score_and_elite :
    (∀ (R : List Recipe) (f : ScheduledTask → Bool) (st : SchedState)
        (s : List ScheduledTask) (st' : SchedState),
        isFeasibleRun R st s = .ok (false, st') →
        scoreRun R f st s = .ok ((⊥ : WithBot ℚ), st'))
    ∧ ∀ scored : List (List ScheduledTask × WithBot ℚ),
        2 ≤ (scored.filter (fun p => p.2 ≠ ⊥)).length →
        ∀ p ∈ elitePairs scored, p.2 ≠ ⊥ :=
  ⟨fun _ _ _ _ _ h => scoreRun_infeasible h, elitePairs_ne_bot⟩

/-- Witness for claim C7's amended theorem: the infeasible `s3demo`
scores `-inf` from a fresh state, and in a scored population with two
finite scores every elite member has a finite score. -/
theorem C7_score_and_elite_witness :
    scoreRun demoRecipes demoOps.isOptimalTiming emptySchedState s3demo
      = .ok ((⊥ : WithBot ℚ), st3demo)
    ∧ ∀ p ∈ elitePairs [(s3demo, (⊥ : WithBot ℚ)), (sOverlap, ((0 : ℚ) : WithBot ℚ)),
        (sOverlap, ((1 : ℚ) : WithBot ℚ))], p.2 ≠ ⊥ :=
  ⟨C7_score_and_elite.1 demoRecipes demoOps.isOptimalTiming emptySchedState s3demo
      st3demo rfl,
   C7_score_and_elite.2 _ (by decide)⟩

/-- Claim C8 (confirmed, spec-modelled): an order whose delivery date
lies in the past validates to `(false, non-empty warnings)`, and
`create_order` then answers 400 with those warnings without ever
invoking the scheduling routine (the result is the same for every
scheduling function). -/
theorem C8_past_date_rejected (recipes : List Recipe) (today : Int) (o : Order)
    (h : o.delivery_date < today) :
    (validateOrder recipes today o).1 = false
    ∧ (validateOrder recipes today o).2 ≠ []
    ∧ ∀ schedOne, createOrder schedOne recipes today o
        = .error (400, (validateOrder recipes today o).2) := by
  have hws : (validateOrder recipes today o).2
      = "Delivery date cannot be in the past" ::
        o.items.filterMap (fun it =>
          if (recipesLookup recipes it.productType).isSome then none
          else some ("No recipe available for product " ++ it.productType)) := by
    simp [validateOrder, if_pos h]
  have hv : (validateOrder recipes today o).1 = false := by
    simp [validateOrder, if_pos h]
  refine ⟨hv, by rw [hws]; simp, ?_⟩
  intro schedOne
  change (if (validateOrder recipes today o).1 = true then
      (match schedOne o with
      | Except.ok tasks => Except.ok (o.id, tasks)
      | Except.error _ => Except.error (500, ["Scheduling error"]))
    else (Except.error (400, (validateOrder recipes today o).2) :
      Except (Nat × List String) (String × List ScheduledTask)))
    = Except.error (400, (validateOrder recipes today o).2)
  rw [hv]
  simp

/-- Witness for claim C8 at the concrete order `oPast` (delivery day 2,
today 5). -/
theorem C8_past_date_witness :
    oPast.delivery_date < 5
    ∧ ((validateOrder demoRecipes 5 oPast).1 = false
      ∧ (validateOrder demoRecipes 5 oPast).2 ≠ []
      ∧ ∀ schedOne, createOrder schedOne demoRecipes 5 oPast
          = .error (400, (validateOrder demoRecipes 5 oPast).2)) :=
  ⟨by decide, C8_past_date_rejected demoRecipes 5 oPast (by decide)⟩

/-- Claim C9 (confirmed): every task list `schedule_orders` returns is
sorted by ascending start time — the function's final step sorts by
`startTime` regardless of construction order. -/
theorem C9_tasks_sorted (recipes : List Recipe) (ops : OptimOps) (orders : List Order)
    (ts : List ScheduledTask) (h : scheduleOrders recipes ops orders = .ok ts) :
    List.Sorted taskStartLe ts :=
  scheduleOrdersGo_sorted recipes ops
    (groupOrdersForBatching (List.insertionSort orderKeyLe orders)) emptySchedState 0 [] ts h

/-- Witness for claim C9 at the concrete C6 entry-point run. -/
theorem C9_tasks_sorted_witness : List.Sorted taskStartLe c6Result :=
  C9_tasks_sorted demoRecipes demoOps [o1demo] c6Result scheduleOrders_demo

/-- Claim C10 (confirmed): every task the heuristic generator produces —
one per recipe step, for any instantiation of the two undefined
helpers — carries status `'pending'` and batch size equal to the
quantity of its order's first item. -/
theorem C10_batchsize_status (ces : Order → Recipe → Timeline → Nat → Int)
    (findSlot : Int → Int → List String → Timeline → Int)
    (orders : List Order) (recipe : Recipe)
    (hitems : ∀ o ∈ orders, o.items ≠ []) :
    ∀ t ∈ generateHeuristicSchedule ces findSlot orders recipe,
      t.status = "pending"
      ∧ ∃ o ∈ orders, t.orderId = o.id ∧ t.batchSize = (o.items.headI).quantity := by
  intro t ht
  obtain ⟨o, ho, s, hs, a, rfl⟩ :=
    generateHeuristicSchedule_shape ces findSlot orders recipe t ht
  exact ⟨rfl, o, ho, rfl, rfl⟩

/-- Witness for claim C10 at the concrete C3 run. -/
theorem C10_batchsize_status_witness :
    (∀ o ∈ [og1, og2], o.items ≠ [])
    ∧ (gA1.status = "pending"
      ∧ ∃ o ∈ [og1, og2], gA1.orderId = o.id ∧ gA1.batchSize = (o.items.headI).quantity) :=
  ⟨by decide, C10_batchsize_status cesChain (slotFinderSimple 100) [og1, og2] recipeG
    (by decide) gA1 (by decide)⟩
